import Mathlib

/-!
Verification of the multi-agent RAG orchestration workflow
(`src/agents/multi_agent_system.py`, class `MultiAgentRAGSystem`).

The workflow is a directed graph of four stages (router_agent, query_agent,
evaluation_agent, response_agent) over a shared mutable `GraphState`,
driven by `execute(query)`.  We embed the state, the four stage functions,
the two decision functions and the graph driver as executable Lean
definitions.  The two external capabilities (the chat model `llm.ainvoke`
and the injected `vector_search_func`) are modelled as functions of an
environment returning `Except Unit _`: `.error ()` models a raised
exception, which the Python code never catches.

Modelling notes:
* Python floats only ever flow into f-strings here (scores are formatted,
  never computed with), so a `SearchResult.score` is embedded as its
  rendered text.
* `state["metadata"]` is a string-keyed dict of which exactly two keys are
  ever written (`router_decision` by the router, `evaluation` by the
  evaluator); it is embedded as two `Option String` fields, `none` for an
  absent key, so `metadata.get(k, "")` becomes `(field).getD ""`.
* `str.lower()` is embedded as character-wise `Char.toLower` (ASCII case
  folding), and Python substring containment (`needle in hay`) as
  `listContains` below.
* The LangGraph driver (`graph.ainvoke`) is embedded as a fuel-indexed
  small-step loop `run`; `execute` passes fuel `2 * max_iterations + 6`,
  which is enough for every path of this graph (router + at most
  `max max_iterations 1` retrieve/evaluate cycles + response).
-/

/-- Roles of the chat messages (`SystemMessage`, `HumanMessage`, model replies). -/
inductive Role where
  | system
  | human
  | ai
deriving DecidableEq, Repr

/-- A role-tagged message (`BaseMessage` with its `content`). -/
structure Msg where
  role : Role
  content : String
deriving DecidableEq, Repr

/-- One retrieval hit: `{content, score, metadata}`.  The score is kept in
its rendered form (it is only ever interpolated into prompts). -/
structure SearchResult where
  content : String
  score : String
  metadata : List (String × String)
deriving DecidableEq, Repr

/-- The LangGraph state (`GraphState` TypedDict). -/
structure GraphState where
  messages : List Msg
  query : String
  search_results : List SearchResult
  answer : String
  current_agent : String
  router_decision : Option String
  evaluation : Option String
  iteration : Nat
deriving DecidableEq, Repr

/-- The two external capabilities injected into `MultiAgentRAGSystem`:
the chat model and the vector-search function.  `.error ()` models a
raised exception. -/
structure Env where
  llm : List Msg → Except Unit String
  vectorSearch : String → Except Unit (List SearchResult)

/-- Python substring containment `String.mk needle in String.mk hay`. -/
def listContains (needle : List Char) : List Char → Bool
  | [] => needle.isEmpty
  | c :: rest => needle.isPrefixOf (c :: rest) || listContains needle rest

/-- Python `needle in hay` on strings. -/
def strContains (hay needle : String) : Bool :=
  listContains needle.toList hay.toList

/-- Python `s.lower()` (ASCII case folding, character-wise). -/
def strLower (s : String) : String :=
  String.mk (s.toList.map Char.toLower)

/-- System prompt of `router_agent`. -/
def routerSystemPrompt : String :=
  "You are a routing agent. Analyze the user\x27s query and determine:\n        1. Does it require searching a knowledge base (RAG)?\n        2. Or can it be answered directly (general knowledge)?\n        \n        Respond with JSON: \x7b\"route\": \"query\" or \"direct\", \"reasoning\": \"...\"\x7d\n        "

/-- System prompt of `evaluation_agent`. -/
def evaluationSystemPrompt : String :=
  "You are an evaluation agent. Assess if the search results \n        are sufficient to answer the user\x27s query. Consider:\n        1. Relevance scores\n        2. Content quality\n        3. Coverage of the query\n        \n        Respond with JSON: \x7b\"sufficient\": true/false, \"reasoning\": \"...\"\x7d\n        "

/-- System prompt of `response_agent`. -/
def responseSystemPrompt : String :=
  "You are a helpful AI assistant. Use the provided context \n        to answer the user\x27s query. Be precise and cite sources when possible.\n        If the context doesn\x27t contain relevant information, say so.\n        "

/-- The message list `router_agent` sends to the model. -/
def routerMessages (query : String) : List Msg :=
  [⟨Role.system, routerSystemPrompt⟩, ⟨Role.human, "Query: " ++ query⟩]

/-- Stage `router_agent`: ask the model to classify the query, append the reply,
record it under `metadata["router_decision"]`. -/
def router_agent (env : Env) (s : GraphState) : Except Unit GraphState :=
  match env.llm (routerMessages s.query) with
  | Except.error e => Except.error e
  | Except.ok content =>
      Except.ok { s with
        messages := s.messages ++ [⟨Role.ai, content⟩],
        current_agent := "router",
        router_decision := some content }

/-- Stage `query_agent`: call the vector-search function with the original query,
replace `search_results` wholesale, increment `iteration` by one. -/
def query_agent (env : Env) (s : GraphState) : Except Unit GraphState :=
  match env.vectorSearch s.query with
  | Except.error e => Except.error e
  | Except.ok results =>
      Except.ok { s with
        search_results := results,
        iteration := s.iteration + 1,
        current_agent := "query" }

/-- The `results_summary` string of `evaluation_agent`: at most the first 3
results, each with its score and the first 200 characters of content. -/
def resultsSummary (rs : List SearchResult) : String :=
  String.intercalate "\n"
    ((rs.take 3).mapIdx fun i r =>
      "Result " ++ toString (i + 1) ++ " (score: " ++ r.score ++ "): "
        ++ r.content.take 200 ++ "...")

/-- The message list `evaluation_agent` sends to the model. -/
def evaluationMessages (s : GraphState) : List Msg :=
  [⟨Role.system, evaluationSystemPrompt⟩,
   ⟨Role.human, "Query: " ++ s.query ++ "\n\nResults:\n"
      ++ resultsSummary s.search_results⟩]

/-- Stage `evaluation_agent`: ask the model whether the results suffice, append
the reply, record it under `metadata["evaluation"]`. -/
def evaluation_agent (env : Env) (s : GraphState) : Except Unit GraphState :=
  match env.llm (evaluationMessages s) with
  | Except.error e => Except.error e
  | Except.ok content =>
      Except.ok { s with
        messages := s.messages ++ [⟨Role.ai, content⟩],
        current_agent := "evaluation",
        evaluation := some content }

/-- One labelled context entry of `response_agent`:
`[Source i+1] (Score: score)\ncontent`. -/
def sourceLabel (i : Nat) (r : SearchResult) : String :=
  "[Source " ++ toString (i + 1) ++ "] (Score: " ++ r.score ++ ")\n" ++ r.content

/-- The labelled entries of the synthesizer context: at most the first 5
search results, enumerated from 0, labelled with 1-based indices. -/
def contextEntries (rs : List SearchResult) : List String :=
  (rs.take 5).mapIdx sourceLabel

/-- The `context` string of `response_agent`. -/
def buildContext (rs : List SearchResult) : String :=
  String.intercalate "\n\n" (contextEntries rs)

/-- The message list `response_agent` sends to the model. -/
def responseMessages (s : GraphState) : List Msg :=
  [⟨Role.system, responseSystemPrompt⟩,
   ⟨Role.human, "Context:\n" ++ buildContext s.search_results
      ++ "\n\nQuery: " ++ s.query⟩]

/-- Stage `response_agent`: ask the model for the final answer over the built
context, set `answer` to the reply, append the reply. -/
def response_agent (env : Env) (s : GraphState) : Except Unit GraphState :=
  match env.llm (responseMessages s) with
  | Except.error e => Except.error e
  | Except.ok content =>
      Except.ok { s with
        answer := content,
        messages := s.messages ++ [⟨Role.ai, content⟩],
        current_agent := "response" }

/-- Decision `_route_decision`: "direct" iff the recorded router reply contains the
substring "direct" (case-insensitive); otherwise "query". -/
def route_decision (s : GraphState) : String :=
  let decision := s.router_decision.getD ""
  if strContains (strLower decision) "direct" then "direct" else "query"

/-- Decision `_evaluation_decision`: force "respond" once `iteration >= max_iterations`;
otherwise "respond" iff the recorded evaluation reply contains both
"sufficient" and "true" (case-insensitive), else "refine". -/
def evaluation_decision (maxIterations : Nat) (s : GraphState) : String :=
  if maxIterations ≤ s.iteration then "respond"
  else
    let evaluation := s.evaluation.getD ""
    if strContains (strLower evaluation) "sufficient"
        && strContains (strLower evaluation) "true" then "respond"
    else "refine"

/-- The nodes of the compiled graph, plus the `END` marker. -/
inductive Node where
  | router
  | query
  | evaluation
  | response
  | done
deriving DecidableEq, Repr

/-- The conditional edge out of `router_agent`:
`{"query": query_agent, "direct": response_agent}`.
`route_decision` only ever returns these two keys. -/
def routeTarget (d : String) : Node :=
  if d = "direct" then Node.response else Node.query

/-- The conditional edge out of `evaluation_agent`:
`{"refine": query_agent, "respond": response_agent}`.
`evaluation_decision` only ever returns these two keys. -/
def evalTarget (d : String) : Node :=
  if d = "respond" then Node.response else Node.query

/-- One step of the compiled graph: run the agent of the node, then follow its
(conditional) outgoing edge. -/
def step (env : Env) (maxIterations : Nat) :
    Node → GraphState → Except Unit (Node × GraphState)
  | Node.router, s =>
      (router_agent env s).map fun s2 => (routeTarget (route_decision s2), s2)
  | Node.query, s =>
      (query_agent env s).map fun s2 => (Node.evaluation, s2)
  | Node.evaluation, s =>
      (evaluation_agent env s).map fun s2 =>
        (evalTarget (evaluation_decision maxIterations s2), s2)
  | Node.response, s =>
      (response_agent env s).map fun s2 => (Node.done, s2)
  | Node.done, s => Except.ok (Node.done, s)

/-- The graph driver (`graph.ainvoke`), fuel-indexed. -/
def run (env : Env) (maxIterations : Nat) (fuel : Nat) (n : Node)
    (s : GraphState) : Except Unit GraphState :=
  match fuel with
  | 0 => if n = Node.done then Except.ok s else Except.error ()
  | fuel + 1 =>
      if n = Node.done then Except.ok s
      else
        match step env maxIterations n s with
        | Except.error e => Except.error e
        | Except.ok (n2, s2) => run env maxIterations fuel n2 s2

/-- The graph driver instrumented with a count of `query_agent`
(Retriever) passes; used to state claims about the number of retrieval
passes a run performs. -/
def runP (env : Env) (maxIterations : Nat) (fuel : Nat) (n : Node)
    (s : GraphState) : Except Unit (GraphState × Nat) :=
  match fuel with
  | 0 => if n = Node.done then Except.ok (s, 0) else Except.error ()
  | fuel + 1 =>
      if n = Node.done then Except.ok (s, 0)
      else
        match step env maxIterations n s with
        | Except.error e => Except.error e
        | Except.ok (n2, s2) =>
            match runP env maxIterations fuel n2 s2 with
            | Except.error e => Except.error e
            | Except.ok (sf, c) =>
                Except.ok (sf, c + if n = Node.query then 1 else 0)

/-- The `initial_state` literal of `execute`. -/
def initialState (query : String) : GraphState :=
  { messages := []
    query := query
    search_results := []
    answer := ""
    current_agent := ""
    router_decision := none
    evaluation := none
    iteration := 0 }

/-- Fuel that suffices for every path of this graph. -/
def executeFuel (maxIterations : Nat) : Nat :=
  2 * maxIterations + 6

/-- The dictionary `execute` returns. -/
structure ExecResult where
  answer : String
  sources : List SearchResult
  router_decision : Option String
  evaluation : Option String
  iterations : Nat
deriving DecidableEq, Repr

/-- Extraction of the returned dictionary from the final state. -/
def mkResult (s : GraphState) : ExecResult :=
  { answer := s.answer
    sources := s.search_results
    router_decision := s.router_decision
    evaluation := s.evaluation
    iterations := s.iteration }

/-- Function `execute(query)`: seed the initial state, drive the graph from the
router to `END`, extract the result dictionary. -/
def execute (env : Env) (maxIterations : Nat) (query : String) :
    Except Unit ExecResult :=
  (run env maxIterations (executeFuel maxIterations) Node.router
    (initialState query)).map mkResult

/-- Per-node invariant on the iteration counter, used to bound the number
of refinement cycles: the router is entered with `iteration = 0`, the
retriever is only entered while another pass is still allowed, and every
other node keeps `iteration` within the forced-termination bound. -/
def stageInv (m : Nat) : Node → GraphState → Prop
  | Node.router, s => s.iteration = 0
  | Node.query, s => s.iteration ≤ m ∧ (1 ≤ m → s.iteration < m)
  | Node.evaluation, s => s.iteration ≤ m + 1 ∧ (1 ≤ m → s.iteration ≤ m)
  | Node.response, s => s.iteration ≤ m + 1 ∧ (1 ≤ m → s.iteration ≤ m)
  | Node.done, s => s.iteration ≤ m + 1 ∧ (1 ≤ m → s.iteration ≤ m)

/-- A model that always answers "direct" and a retrieval function that
always returns no hits (concrete test doubles). -/
def demoDirectEnv : Env :=
  { llm := fun _ => Except.ok "direct"
    vectorSearch := fun _ => Except.ok [] }

/-- A model that always judges the evidence insufficient. -/
def demoRefineEnv : Env :=
  { llm := fun _ => Except.ok "sufficient: false"
    vectorSearch := fun _ => Except.ok [] }

/-- A model and a retrieval function that always fail. -/
def demoErrorEnv : Env :=
  { llm := fun _ => Except.error ()
    vectorSearch := fun _ => Except.error () }

/-- A model that judges the evidence sufficient on the first pass. -/
def demoSufficientEnv : Env :=
  { llm := fun _ => Except.ok "sufficient: true"
    vectorSearch := fun _ => Except.ok [⟨"docA", "0.9", []⟩, ⟨"docB", "0.8", []⟩] }

/-- A concrete retrieval hit for witnesses. -/
def sampleResult : SearchResult :=
  { content := "chunk", score := "0.5", metadata := [] }

/-- A concrete mid-run state for witnesses: the evaluator has replied
"sufficient: true" but the run is already past `max_iterations`. -/
def sampleEvalState : GraphState :=
  { initialState "q" with evaluation := some "sufficient: true", iteration := 3 }

/-! ### Characterization lemmas for the stages and the driver -/

lemma router_agent_eq (env : Env) (s : GraphState) :
    router_agent env s =
      match env.llm (routerMessages s.query) with
      | Except.error e => Except.error e
      | Except.ok r =>
          Except.ok { s with
            messages := s.messages ++ [⟨Role.ai, r⟩],
            current_agent := "router",
            router_decision := some r } := rfl

lemma query_agent_eq (env : Env) (s : GraphState) :
    query_agent env s =
      match env.vectorSearch s.query with
      | Except.error e => Except.error e
      | Except.ok results =>
          Except.ok { s with
            search_results := results,
            iteration := s.iteration + 1,
            current_agent := "query" } := rfl

lemma evaluation_agent_eq (env : Env) (s : GraphState) :
    evaluation_agent env s =
      match env.llm (evaluationMessages s) with
      | Except.error e => Except.error e
      | Except.ok r =>
          Except.ok { s with
            messages := s.messages ++ [⟨Role.ai, r⟩],
            current_agent := "evaluation",
            evaluation := some r } := rfl

lemma response_agent_eq (env : Env) (s : GraphState) :
    response_agent env s =
      match env.llm (responseMessages s) with
      | Except.error e => Except.error e
      | Except.ok r =>
          Except.ok { s with
            answer := r,
            messages := s.messages ++ [⟨Role.ai, r⟩],
            current_agent := "response" } := rfl

lemma routeTarget_ne_done (d : String) : routeTarget d ≠ Node.done := by
  unfold routeTarget; split <;> simp

lemma evalTarget_ne_done (d : String) : evalTarget d ≠ Node.done := by
  unfold evalTarget; split <;> simp

lemma run_done (env : Env) (m fuel : Nat) (s : GraphState) :
    run env m fuel Node.done s = Except.ok s := by
  cases fuel <;> simp [run]

lemma run_step_ok (env : Env) (m fuel : Nat) (n : Node) (s : GraphState)
    (n2 : Node) (s2 : GraphState) (hn : n ≠ Node.done)
    (h : step env m n s = Except.ok (n2, s2)) :
    run env m (fuel + 1) n s = run env m fuel n2 s2 := by
  simp [run, hn, h]

lemma run_step_err (env : Env) (m fuel : Nat) (n : Node) (s : GraphState)
    (hn : n ≠ Node.done) (h : step env m n s = Except.error ()) :
    run env m (fuel + 1) n s = Except.error () := by
  simp [run, hn, h]

lemma runP_done (env : Env) (m fuel : Nat) (s : GraphState) :
    runP env m fuel Node.done s = Except.ok (s, 0) := by
  cases fuel <;> simp [runP]

lemma runP_step_ok (env : Env) (m fuel : Nat) (n : Node) (s : GraphState)
    (n2 : Node) (s2 sf : GraphState) (c : Nat) (hn : n ≠ Node.done)
    (hstep : step env m n s = Except.ok (n2, s2))
    (hrec : runP env m fuel n2 s2 = Except.ok (sf, c)) :
    runP env m (fuel + 1) n s =
      Except.ok (sf, c + if n = Node.query then 1 else 0) := by
  simp [runP, hn, hstep, hrec]

/-- The instrumented driver refines the plain driver. -/
lemma runP_run (env : Env) (m : Nat) : ∀ (fuel : Nat) (n : Node)
    (s sf : GraphState) (c : Nat),
    runP env m fuel n s = Except.ok (sf, c) →
    run env m fuel n s = Except.ok sf := by
  intro fuel
  induction fuel with
  | zero =>
      intro n s sf c h
      by_cases hn : n = Node.done
      · subst hn
        simp [runP] at h
        simp [run, h.1]
      · simp [runP, hn] at h
  | succ f ih =>
      intro n s sf c h
      by_cases hn : n = Node.done
      · subst hn
        simp [runP] at h
        simp [run, h.1]
      · rcases hstep : step env m n s with e | p
        · simp [runP, hn, hstep] at h
        · obtain ⟨n2, s2⟩ := p
          rcases hrec : runP env m f n2 s2 with e2 | p2
          · simp [runP, hn, hstep, hrec] at h
          · obtain ⟨sf2, c2⟩ := p2
            have h2 := h
            rw [runP_step_ok env m f n s n2 s2 sf2 c2 hn hstep hrec] at h2
            simp at h2
            rw [run_step_ok env m f n s n2 s2 hn hstep]
            rw [ih n2 s2 sf2 c2 hrec, h2.1]

/-- Per-step effect on the iteration counter: only `query_agent`
(the Retriever) changes it, and only by `+ 1`. -/
lemma step_iteration (env : Env) (m : Nat) (n : Node) (s : GraphState)
    (n2 : Node) (s2 : GraphState) (h : step env m n s = Except.ok (n2, s2)) :
    (n = Node.query → s2.iteration = s.iteration + 1)
  ∧ (n ≠ Node.query → s2.iteration = s.iteration) := by
  cases n
  case router =>
    simp only [step, router_agent_eq] at h
    rcases hc : env.llm (routerMessages s.query) with e | r <;> rw [hc] at h <;>
      simp [Except.map] at h
    obtain ⟨-, h2⟩ := h
    subst h2
    simp
  case query =>
    simp only [step, query_agent_eq] at h
    rcases hc : env.vectorSearch s.query with e | rs <;> rw [hc] at h <;>
      simp [Except.map] at h
    obtain ⟨-, h2⟩ := h
    subst h2
    simp
  case evaluation =>
    simp only [step, evaluation_agent_eq] at h
    rcases hc : env.llm (evaluationMessages s) with e | r <;> rw [hc] at h <;>
      simp [Except.map] at h
    obtain ⟨-, h2⟩ := h
    subst h2
    simp
  case response =>
    simp only [step, response_agent_eq] at h
    rcases hc : env.llm (responseMessages s) with e | r <;> rw [hc] at h <;>
      simp [Except.map] at h
    obtain ⟨-, h2⟩ := h
    subst h2
    simp
  case done =>
    simp only [step, Except.ok.injEq, Prod.mk.injEq] at h
    obtain ⟨-, h2⟩ := h
    subst h2
    simp

/-- Function `_route_decision` only ever returns the two edge keys. -/
lemma route_decision_cases (s : GraphState) :
    route_decision s = "direct" ∨ route_decision s = "query" := by
  rw [route_decision]
  by_cases h : strContains (strLower (s.router_decision.getD "")) "direct" = true
  · left; simp [h]
  · right; simp [h]

/-- Function `_evaluation_decision` only ever returns the two edge keys. -/
lemma evaluation_decision_cases (m : Nat) (s : GraphState) :
    evaluation_decision m s = "respond" ∨ evaluation_decision m s = "refine" := by
  rw [evaluation_decision]
  by_cases hge : m ≤ s.iteration
  · left; simp [hge]
  · by_cases hc : (strContains (strLower (s.evaluation.getD "")) "sufficient"
        && strContains (strLower (s.evaluation.getD "")) "true") = true
    · left; simp [hge, hc]
    · right; simp [hge, hc]

/-- A "refine" verdict is only possible strictly below the iteration cap. -/
lemma evaluation_decision_refine_lt (m : Nat) (s : GraphState)
    (h : evaluation_decision m s = "refine") : s.iteration < m := by
  by_contra hge
  push_neg at hge
  rw [evaluation_decision, if_pos hge] at h
  exact absurd h (by decide)

/-- One graph step preserves the per-node iteration invariant. -/
lemma step_inv (env : Env) (m : Nat) (n : Node) (s : GraphState)
    (n2 : Node) (s2 : GraphState) (h : step env m n s = Except.ok (n2, s2))
    (hinv : stageInv m n s) : stageInv m n2 s2 := by
  cases n
  case router =>
    simp only [step, router_agent_eq] at h
    rcases hc : env.llm (routerMessages s.query) with e | r <;> rw [hc] at h <;>
      simp [Except.map] at h
    obtain ⟨h1, h2⟩ := h
    subst h2
    subst h1
    simp only [stageInv] at hinv
    unfold routeTarget
    split <;> simp [stageInv] <;> omega
  case query =>
    simp only [step, query_agent_eq] at h
    rcases hc : env.vectorSearch s.query with e | rs <;> rw [hc] at h <;>
      simp [Except.map] at h
    obtain ⟨h1, h2⟩ := h
    subst h2
    subst h1
    simp only [stageInv] at hinv ⊢
    omega
  case evaluation =>
    simp only [step, evaluation_agent_eq] at h
    rcases hc : env.llm (evaluationMessages s) with e | r <;> rw [hc] at h <;>
      simp [Except.map] at h
    obtain ⟨h1, h2⟩ := h
    subst h2
    subst h1
    simp only [stageInv] at hinv
    have hcases := evaluation_decision_cases m { s with
      messages := s.messages ++ [⟨Role.ai, r⟩],
      current_agent := "evaluation",
      evaluation := some r }
    rcases hcases with hd | hd
    · rw [hd]
      have ht : evalTarget "respond" = Node.response := by simp [evalTarget]
      rw [ht]
      simp only [stageInv]
      omega
    · have hlt := evaluation_decision_refine_lt m _ hd
      dsimp only at hlt
      rw [hd]
      have ht : evalTarget "refine" = Node.query := by simp [evalTarget]
      rw [ht]
      simp only [stageInv]
      omega
  case response =>
    simp only [step, response_agent_eq] at h
    rcases hc : env.llm (responseMessages s) with e | r <;> rw [hc] at h <;>
      simp [Except.map] at h
    obtain ⟨h1, h2⟩ := h
    subst h2
    subst h1
    simp only [stageInv] at hinv ⊢
    omega
  case done =>
    simp only [step, Except.ok.injEq, Prod.mk.injEq] at h
    obtain ⟨h1, h2⟩ := h
    subst h2
    subst h1
    exact hinv

/-- Driving the graph to the end preserves the iteration invariant. -/
lemma run_inv (env : Env) (m : Nat) : ∀ (fuel : Nat) (n : Node)
    (s sf : GraphState), run env m fuel n s = Except.ok sf →
    stageInv m n s → stageInv m Node.done sf := by
  intro fuel
  induction fuel with
  | zero =>
      intro n s sf h hinv
      by_cases hn : n = Node.done
      · subst hn
        simp [run] at h
        subst h
        exact hinv
      · simp [run, hn] at h
  | succ f ih =>
      intro n s sf h hinv
      by_cases hn : n = Node.done
      · subst hn
        rw [run_done] at h
        cases h
        exact hinv
      · rcases hstep : step env m n s with e | p
        · cases e
          rw [run_step_err env m f n s hn hstep] at h
          cases h
        · obtain ⟨n2, s2⟩ := p
          rw [run_step_ok env m f n s n2 s2 hn hstep] at h
          exact ih n2 s2 sf h (step_inv env m n s n2 s2 hstep hinv)

/-- The iteration counter never decreases across a whole run. -/
lemma run_iteration_mono (env : Env) (m : Nat) : ∀ (fuel : Nat) (n : Node)
    (s sf : GraphState), run env m fuel n s = Except.ok sf →
    s.iteration ≤ sf.iteration := by
  intro fuel
  induction fuel with
  | zero =>
      intro n s sf h
      by_cases hn : n = Node.done
      · subst hn
        simp [run] at h
        subst h
        exact Nat.le_refl _
      · simp [run, hn] at h
  | succ f ih =>
      intro n s sf h
      by_cases hn : n = Node.done
      · subst hn
        rw [run_done] at h
        cases h
        exact Nat.le_refl _
      · rcases hstep : step env m n s with e | p
        · cases e
          rw [run_step_err env m f n s hn hstep] at h
          cases h
        · obtain ⟨n2, s2⟩ := p
          rw [run_step_ok env m f n s n2 s2 hn hstep] at h
          have hmono := step_iteration env m n s n2 s2 hstep
          have h2 := ih n2 s2 sf h
          by_cases hq : n = Node.query
          · have := hmono.1 hq
            omega
          · have := hmono.2 hq
            omega

/-- The final answer of a completed run is a model reply to a synthesizer
prompt: only `response_agent` ever writes `answer`. -/
lemma run_answer (env : Env) (m : Nat) : ∀ (fuel : Nat) (n : Node)
    (s sf : GraphState), n ≠ Node.done →
    run env m fuel n s = Except.ok sf →
    ∃ pre r, env.llm (responseMessages pre) = Except.ok r ∧ sf.answer = r := by
  intro fuel
  induction fuel with
  | zero =>
      intro n s sf hn h
      simp [run, hn] at h
  | succ f ih =>
      intro n s sf hn h
      rcases hstep : step env m n s with e | p
      · cases e
        rw [run_step_err env m f n s hn hstep] at h
        cases h
      · obtain ⟨n2, s2⟩ := p
        rw [run_step_ok env m f n s n2 s2 hn hstep] at h
        cases n
        case router =>
          simp only [step, router_agent_eq] at hstep
          rcases hc : env.llm (routerMessages s.query) with e | r <;>
            rw [hc] at hstep <;> simp [Except.map] at hstep
          obtain ⟨h1, h2⟩ := hstep
          subst h2
          subst h1
          exact ih _ _ _ (routeTarget_ne_done _) h
        case query =>
          simp only [step, query_agent_eq] at hstep
          rcases hc : env.vectorSearch s.query with e | rs <;>
            rw [hc] at hstep <;> simp [Except.map] at hstep
          obtain ⟨h1, h2⟩ := hstep
          subst h2
          subst h1
          exact ih _ _ _ (by simp) h
        case evaluation =>
          simp only [step, evaluation_agent_eq] at hstep
          rcases hc : env.llm (evaluationMessages s) with e | r <;>
            rw [hc] at hstep <;> simp [Except.map] at hstep
          obtain ⟨h1, h2⟩ := hstep
          subst h2
          subst h1
          exact ih _ _ _ (evalTarget_ne_done _) h
        case response =>
          simp only [step, response_agent_eq] at hstep
          rcases hc : env.llm (responseMessages s) with e | r <;>
            rw [hc] at hstep <;> simp [Except.map] at hstep
          obtain ⟨h1, h2⟩ := hstep
          subst h2
          subst h1
          rw [run_done] at h
          cases h
          exact ⟨s, r, hc, rfl⟩
        case done =>
          exact absurd rfl hn

/-- Exhaustion loop: entering the Retriever with `d` more passes needed to
reach the cap, an always-insufficient evaluator drives exactly `d` further
Retriever passes and then hands over to the Synthesizer. -/
lemma refine_loop (env : Env) (m : Nat)
    (hS : ∀ t, ∃ rs, env.vectorSearch t = Except.ok rs)
    (hL : ∀ msgs, ∃ r, env.llm msgs = Except.ok r)
    (hE : ∀ s r, env.llm (evaluationMessages s) = Except.ok r →
      (strContains (strLower r) "sufficient"
        && strContains (strLower r) "true") = false) :
    ∀ (d : Nat) (s : GraphState) (fuel : Nat), 1 ≤ d → s.iteration + d = m →
      2 * d + 2 ≤ fuel →
      ∃ sf, runP env m fuel Node.query s = Except.ok (sf, d) ∧
        sf.iteration = m ∧ sf.current_agent = "response" := by
  intro d
  induction d with
  | zero =>
      intro s fuel h1 h2 h3
      omega
  | succ d ih =>
      intro s fuel h1 hiter hfuel
      obtain ⟨f2, rfl⟩ : ∃ f2, fuel = f2 + 2 := ⟨fuel - 2, by omega⟩
      obtain ⟨rs, hrs⟩ := hS s.query
      obtain ⟨s1, hstep1, hs1i⟩ :
          ∃ s1, step env m Node.query s = Except.ok (Node.evaluation, s1) ∧
            s1.iteration = s.iteration + 1 := by
        refine ⟨{ s with
          search_results := rs,
          iteration := s.iteration + 1,
          current_agent := "query" }, ?_, rfl⟩
        simp [step, query_agent_eq, hrs, Except.map]
      obtain ⟨r, hr⟩ := hL (evaluationMessages s1)
      obtain ⟨s2, hstep2, hs2i, hs2e⟩ :
          ∃ s2, step env m Node.evaluation s1 =
              Except.ok (evalTarget (evaluation_decision m s2), s2) ∧
            s2.iteration = s1.iteration ∧ s2.evaluation = some r := by
        refine ⟨{ s1 with
          messages := s1.messages ++ [⟨Role.ai, r⟩],
          current_agent := "evaluation",
          evaluation := some r }, ?_, rfl, rfl⟩
        simp [step, evaluation_agent_eq, hr, Except.map]
      rcases Nat.eq_zero_or_pos d with hd | hd
      · subst hd
        have hdec : evaluation_decision m s2 = "respond" := by
          rw [evaluation_decision, if_pos (by omega)]
        rw [hdec] at hstep2
        have ht : evalTarget "respond" = Node.response := by simp [evalTarget]
        rw [ht] at hstep2
        obtain ⟨f3, rfl⟩ : ∃ f3, f2 = f3 + 1 := ⟨f2 - 1, by omega⟩
        obtain ⟨a, ha⟩ := hL (responseMessages s2)
        obtain ⟨s3, hstep3, hs3i, hs3a⟩ :
            ∃ s3, step env m Node.response s2 = Except.ok (Node.done, s3) ∧
              s3.iteration = s2.iteration ∧ s3.current_agent = "response" := by
          refine ⟨{ s2 with
            answer := a,
            messages := s2.messages ++ [⟨Role.ai, a⟩],
            current_agent := "response" }, ?_, rfl, rfl⟩
          simp [step, response_agent_eq, ha, Except.map]
        have hresp : runP env m (f3 + 1) Node.response s2 = Except.ok (s3, 0) := by
          have := runP_step_ok env m f3 Node.response s2 Node.done s3 s3 0
            (by simp) hstep3 (runP_done env m f3 s3)
          simpa using this
        have heval : runP env m (f3 + 2) Node.evaluation s1 = Except.ok (s3, 0) := by
          have := runP_step_ok env m (f3 + 1) Node.evaluation s1 Node.response s2 s3 0
            (by simp) hstep2 hresp
          simpa using this
        have hquery : runP env m (f3 + 3) Node.query s = Except.ok (s3, 1) := by
          have := runP_step_ok env m (f3 + 2) Node.query s Node.evaluation s1 s3 0
            (by simp) hstep1 heval
          simpa using this
        exact ⟨s3, by simpa using hquery, by omega, hs3a⟩
      · have hins := hE s1 r hr
        have hdec : evaluation_decision m s2 = "refine" := by
          rw [evaluation_decision, if_neg (by omega), hs2e]
          simp [hins]
        rw [hdec] at hstep2
        have ht : evalTarget "refine" = Node.query := by simp [evalTarget]
        rw [ht] at hstep2
        obtain ⟨sf, hrec, hsfi, hsfa⟩ := ih s2 f2 hd (by omega) (by omega)
        have heval : runP env m (f2 + 1) Node.evaluation s1 = Except.ok (sf, d) := by
          have := runP_step_ok env m f2 Node.evaluation s1 Node.query s2 sf d
            (by simp) hstep2 hrec
          simpa using this
        have hquery : runP env m (f2 + 2) Node.query s = Except.ok (sf, d + 1) := by
          have := runP_step_ok env m (f2 + 1) Node.query s Node.evaluation s1 sf d
            (by simp) hstep1 heval
          simpa using this
        exact ⟨sf, hquery, hsfi, hsfa⟩

/-- Index access through `List.mapIdx`. -/
lemma getElem?_mapIdx {α β : Type} :
    ∀ (f : Nat → α → β) (l : List α) (i : Nat),
      (l.mapIdx f)[i]? = (l[i]?).map (f i) := by
  intro f l
  induction l generalizing f with
  | nil => intro i; simp
  | cons a t ih =>
      intro i
      rw [List.mapIdx_cons]
      cases i with
      | zero => simp
      | succ j => simp [ih]

/-- C1: the Evaluator decision function returns "respond" whenever
`iteration >= max_iterations`, regardless of the recorded evaluation reply
(the limit check takes precedence); below the limit it returns "respond"
exactly when the recorded evaluation reply contains both "sufficient" and
"true" (case-insensitive), and "refine" in every other case. -/
theorem c1_evaluator_decision (m : Nat) (s : GraphState) :
    (m ≤ s.iteration → evaluation_decision m s = "respond")
  ∧ (s.iteration < m →
      ((evaluation_decision m s = "respond" ↔
          strContains (strLower (s.evaluation.getD "")) "sufficient" = true ∧
          strContains (strLower (s.evaluation.getD "")) "true" = true)
        ∧ (¬ (strContains (strLower (s.evaluation.getD "")) "sufficient" = true ∧
              strContains (strLower (s.evaluation.getD "")) "true" = true) →
            evaluation_decision m s = "refine"))) := by
  constructor
  · intro h
    simp [evaluation_decision, h]
  · intro h
    have hnot : ¬ m ≤ s.iteration := by omega
    by_cases hc : (strContains (strLower (s.evaluation.getD "")) "sufficient"
        && strContains (strLower (s.evaluation.getD "")) "true") = true
    · have hab : strContains (strLower (s.evaluation.getD "")) "sufficient" = true ∧
          strContains (strLower (s.evaluation.getD "")) "true" = true := by
        simpa using hc
      exact ⟨iff_of_true (by simp [evaluation_decision, hnot, hc]) hab,
        fun hn => (hn hab).elim⟩
    · have hab : ¬ (strContains (strLower (s.evaluation.getD "")) "sufficient" = true ∧
          strContains (strLower (s.evaluation.getD "")) "true" = true) := by
        intro hx
        exact hc (by simp [hx.1, hx.2])
      have hrf : evaluation_decision m s = "refine" := by
        simp [evaluation_decision, hnot, hc]
      refine ⟨iff_of_false ?_ hab, fun _ => hrf⟩
      rw [hrf]
      decide

/-- Witness for C1 at concrete states: past the limit, the verdict is
"respond" even though the limit check fires; below the limit, a
"sufficient ... true" reply also yields "respond". -/
theorem c1_evaluator_decision_witness :
    evaluation_decision 2 sampleEvalState = "respond" ∧
    evaluation_decision 5 sampleEvalState = "respond" :=
  ⟨(c1_evaluator_decision 2 sampleEvalState).1 (by decide),
   (((c1_evaluator_decision 5 sampleEvalState).2 (by decide)).1).mpr (by decide)⟩

/-- C2: the Router decision routes to the direct-answer path (the
Synthesizer node) exactly when the recorded router reply contains
"direct" (case-insensitive); every other reply, the empty string
included, routes to the Retriever node. -/
theorem c2_router_decision (s : GraphState) :
    (route_decision s = "direct" ↔
      strContains (strLower (s.router_decision.getD "")) "direct" = true)
  ∧ (route_decision s = "query" ↔
      strContains (strLower (s.router_decision.getD "")) "direct" = false)
  ∧ (routeTarget (route_decision s) = Node.response ↔
      strContains (strLower (s.router_decision.getD "")) "direct" = true)
  ∧ (routeTarget (route_decision s) = Node.query ↔
      strContains (strLower (s.router_decision.getD "")) "direct" = false) := by
  by_cases hc : strContains (strLower (s.router_decision.getD "")) "direct" = true
  · have hd : route_decision s = "direct" := by simp [route_decision, hc]
    rw [hd]
    refine ⟨iff_of_true rfl hc, iff_of_false (by decide) (by simp [hc]),
      iff_of_true (by simp [routeTarget]) hc,
      iff_of_false (by simp [routeTarget]) (by simp [hc])⟩
  · have hf : strContains (strLower (s.router_decision.getD "")) "direct" = false :=
      by simpa using hc
    have hd : route_decision s = "query" := by simp [route_decision, hf]
    rw [hd]
    refine ⟨iff_of_false (by decide) (by simp [hf]), iff_of_true rfl hf,
      iff_of_false (by simp [routeTarget]) (by simp [hf]),
      iff_of_true (by simp [routeTarget]) hf⟩

/-- C7: the Synthesizer context takes at most the first 5 search results,
in order (given 12 results exactly 5 entries appear), and labels entry
`i` with the 1-based source index `i + 1` and the score of the result. -/
theorem c7_synthesizer_context (rs : List SearchResult) :
    contextEntries rs = contextEntries (rs.take 5)
  ∧ (contextEntries rs).length = min 5 rs.length
  ∧ (∀ i, i < 5 → (contextEntries rs)[i]? = (rs[i]?).map fun r =>
      "[Source " ++ toString (i + 1) ++ "] (Score: " ++ r.score ++ ")\n" ++ r.content)
  ∧ (∀ i, 5 ≤ i → (contextEntries rs)[i]? = none)
  ∧ (rs.length = 12 → (contextEntries rs).length = 5) := by
  refine ⟨?_, ?_, ?_, ?_, ?_⟩
  · simp [contextEntries, List.take_take]
  · simp [contextEntries, List.length_mapIdx, List.length_take]
  · intro i hi
    rw [contextEntries, getElem?_mapIdx, List.getElem?_take, if_pos hi]
    rfl
  · intro i hi
    apply List.getElem?_eq_none
    have : (contextEntries rs).length = min 5 rs.length := by
      simp [contextEntries, List.length_mapIdx, List.length_take]
    omega
  · intro h
    have : (contextEntries rs).length = min 5 rs.length := by
      simp [contextEntries, List.length_mapIdx, List.length_take]
    omega

/-- Witness for C7 at 12 identical results: exactly 5 context entries,
and the first is labelled "[Source 1]". -/
theorem c7_synthesizer_context_witness :
    (contextEntries (List.replicate 12 sampleResult)).length = 5 ∧
    (contextEntries (List.replicate 12 sampleResult))[0]? =
      some "[Source 1] (Score: 0.5)\nchunk" := by
  constructor
  · exact (c7_synthesizer_context (List.replicate 12 sampleResult)).2.2.2.2 (by simp)
  · rw [(c7_synthesizer_context (List.replicate 12 sampleResult)).2.2.1 0 (by decide)]
    rfl

/-- C8: a failure of the model client or the retrieval function is not
caught inside any stage: the stage, and the whole of `execute`, return the
error itself, with no partial result. -/
theorem c8_error_propagation :
    (∀ (env : Env) (s : GraphState),
      env.llm (routerMessages s.query) = Except.error () →
      router_agent env s = Except.error ())
  ∧ (∀ (env : Env) (s : GraphState),
      env.vectorSearch s.query = Except.error () →
      query_agent env s = Except.error ())
  ∧ (∀ (env : Env) (s : GraphState),
      env.llm (evaluationMessages s) = Except.error () →
      evaluation_agent env s = Except.error ())
  ∧ (∀ (env : Env) (s : GraphState),
      env.llm (responseMessages s) = Except.error () →
      response_agent env s = Except.error ())
  ∧ (∀ (env : Env) (m : Nat) (q : String),
      env.llm (routerMessages q) = Except.error () →
      execute env m q = Except.error ())
  ∧ (∀ (env : Env) (m : Nat) (q r : String),
      env.llm (routerMessages q) = Except.ok r →
      strContains (strLower r) "direct" = false →
      env.vectorSearch q = Except.error () →
      execute env m q = Except.error ()) := by
  refine ⟨?_, ?_, ?_, ?_, ?_, ?_⟩
  · intro env s h
    simp [router_agent_eq, h]
  · intro env s h
    simp [query_agent_eq, h]
  · intro env s h
    simp [evaluation_agent_eq, h]
  · intro env s h
    simp [response_agent_eq, h]
  · intro env m q h
    have hq : (initialState q).query = q := rfl
    have hstep : step env m Node.router (initialState q) = Except.error () := by
      simp [step, router_agent_eq, hq, h, Except.map]
    obtain ⟨f, hf⟩ : ∃ f, executeFuel m = f + 1 := ⟨2 * m + 5, by unfold executeFuel; omega⟩
    rw [execute, hf, run_step_err env m f Node.router (initialState q) (by simp) hstep]
    rfl
  · intro env m q r hok hnd hverr
    have hq : (initialState q).query = q := rfl
    obtain ⟨s1, hstep1, hs1q⟩ :
        ∃ s1, step env m Node.router (initialState q) = Except.ok (Node.query, s1) ∧
          s1.query = q := by
      refine ⟨{ initialState q with
        messages := [⟨Role.ai, r⟩],
        current_agent := "router",
        router_decision := some r }, ?_, rfl⟩
      simp [step, router_agent_eq, hq, hok, Except.map, routeTarget, initialState,
        route_decision, hnd]
    have hstep2 : step env m Node.query s1 = Except.error () := by
      rw [step, query_agent_eq, hs1q, hverr]
      exact rfl
    obtain ⟨f, hf⟩ : ∃ f, executeFuel m = f + 2 := ⟨2 * m + 4, by unfold executeFuel; omega⟩
    rw [execute, hf, run_step_ok env m (f + 1) Node.router (initialState q) Node.query s1
      (by simp) hstep1]
    rw [run_step_err env m f Node.query s1 (by simp) hstep2]
    rfl

/-- Witness for C8: with always-failing external capabilities, both the
first stage and the whole run fail. -/
theorem c8_error_propagation_witness :
    router_agent demoErrorEnv (initialState "q") = Except.error () ∧
    execute demoErrorEnv 3 "q" = Except.error () :=
  ⟨c8_error_propagation.1 demoErrorEnv (initialState "q") rfl,
   c8_error_propagation.2.2.2.2.1 demoErrorEnv 3 "q" rfl⟩

/-- C9: `evaluation_agent` always consults the model, also on the pass
where the iteration limit already forces "respond": exactly one reply is
appended to the message log, `metadata["evaluation"]` is set to the reply
text, and past the limit the decision on the resulting state is "respond"
regardless of that reply. -/
theorem c9_evaluator_always_invoked (env : Env) (m : Nat) (s : GraphState) :
    (env.llm (evaluationMessages s) = Except.error () →
      evaluation_agent env s = Except.error ())
  ∧ (∀ r, env.llm (evaluationMessages s) = Except.ok r →
      ∃ s2, evaluation_agent env s = Except.ok s2
        ∧ s2.messages = s.messages ++ [⟨Role.ai, r⟩]
        ∧ s2.evaluation = some r
        ∧ s2.iteration = s.iteration
        ∧ (m ≤ s.iteration → evaluation_decision m s2 = "respond")) := by
  constructor
  · intro h
    simp [evaluation_agent_eq, h]
  · intro r h
    refine ⟨{ s with
      messages := s.messages ++ [⟨Role.ai, r⟩],
      current_agent := "evaluation",
      evaluation := some r }, ?_, rfl, rfl, rfl, ?_⟩
    · simp [evaluation_agent_eq, h]
    · intro hge
      rw [evaluation_decision]
      exact if_pos hge

/-- Witness for C9: past the limit (`max_iterations = 1`, `iteration = 3`),
the model is still consulted, its reply is recorded, and the decision is
"respond". -/
theorem c9_evaluator_always_invoked_witness :
    ∃ s2, evaluation_agent demoRefineEnv sampleEvalState = Except.ok s2
      ∧ s2.evaluation = some "sufficient: false"
      ∧ s2.messages = sampleEvalState.messages ++ [⟨Role.ai, "sufficient: false"⟩]
      ∧ evaluation_decision 1 s2 = "respond" := by
  obtain ⟨s2, h1, h2, h3, h4, h5⟩ :=
    (c9_evaluator_always_invoked demoRefineEnv 1 sampleEvalState).2 "sufficient: false" rfl
  exact ⟨s2, h1, h3, h2, h5 (by decide)⟩

/-- C3: the iteration counter starts at 0, never decreases across a graph
step, is incremented only by the Retriever node (by exactly 1 per pass),
and the count returned by `execute` never exceeds `max_iterations + 1`. -/
theorem c3_iteration_counter :
    (∀ q, (initialState q).iteration = 0)
  ∧ (∀ (env : Env) (m : Nat) (n : Node) (s : GraphState) (n2 : Node) (s2 : GraphState),
      step env m n s = Except.ok (n2, s2) →
      s.iteration ≤ s2.iteration
      ∧ (n = Node.query → s2.iteration = s.iteration + 1)
      ∧ (n ≠ Node.query → s2.iteration = s.iteration))
  ∧ (∀ (env : Env) (m : Nat) (q : String) (res : ExecResult),
      execute env m q = Except.ok res → res.iterations ≤ m + 1) := by
  refine ⟨fun q => rfl, ?_, ?_⟩
  · intro env m n s n2 s2 h
    have h2 := step_iteration env m n s n2 s2 h
    refine ⟨?_, h2.1, h2.2⟩
    by_cases hq : n = Node.query
    · have := h2.1 hq
      omega
    · have := h2.2 hq
      omega
  · intro env m q res h
    rw [execute] at h
    rcases hrun : run env m (executeFuel m) Node.router (initialState q) with e | sf <;>
      rw [hrun] at h <;> simp [Except.map] at h
    have hinv := run_inv env m (executeFuel m) Node.router (initialState q) sf hrun
      (by simp [stageInv, initialState])
    simp only [stageInv] at hinv
    rw [← h]
    simp only [mkResult]
    omega

/-- Witness for C3: a concrete run of the direct path returns 0 iterations,
within the bound. -/
theorem c3_iteration_counter_witness :
    (initialState "q").iteration = 0 ∧
    ({ answer := "direct", sources := [], router_decision := some "direct",
       evaluation := none, iterations := 0 } : ExecResult).iterations ≤ 0 + 1 :=
  ⟨c3_iteration_counter.1 "q",
   c3_iteration_counter.2.2 demoDirectEnv 0 "q" _ rfl⟩

/-- C10: a strictly tighter bound than the one of C3: "refine" is only chosen while
`iteration < max_iterations`, so for `max_iterations >= 1` the returned
iteration count is at most `max_iterations` itself. -/
theorem c10_tight_iteration_bound :
    (∀ (m : Nat) (s : GraphState),
      evaluation_decision m s = "refine" → s.iteration < m)
  ∧ (∀ (env : Env) (m : Nat) (q : String) (res : ExecResult),
      1 ≤ m → execute env m q = Except.ok res → res.iterations ≤ m) := by
  refine ⟨evaluation_decision_refine_lt, ?_⟩
  intro env m q res hm h
  rw [execute] at h
  rcases hrun : run env m (executeFuel m) Node.router (initialState q) with e | sf <;>
    rw [hrun] at h <;> simp [Except.map] at h
  have hinv := run_inv env m (executeFuel m) Node.router (initialState q) sf hrun
    (by simp [stageInv, initialState])
  simp only [stageInv] at hinv
  have := hinv.2 hm
  rw [← h]
  simp only [mkResult]
  omega

/-- Witness for C10: the fresh state yields "refine" below the limit, and
the two-pass exhaustion run returns exactly 2 <= 2 iterations. -/
theorem c10_tight_iteration_bound_witness :
    (initialState "q").iteration < 5 ∧
    ({ answer := "sufficient: false", sources := [],
       router_decision := some "sufficient: false",
       evaluation := some "sufficient: false",
       iterations := 2 } : ExecResult).iterations ≤ 2 :=
  ⟨c10_tight_iteration_bound.1 5 (initialState "q") rfl,
   c10_tight_iteration_bound.2 demoRefineEnv 2 "q" _ (by decide) rfl⟩

/-- C5: when the router reply contains "direct" (case-insensitive), the
Retriever never runs: `search_results` stays empty and is returned as
empty sources, the Synthesizer runs directly after the Router, the
returned iteration count is 0, and the result does not depend on the
retrieval function at all. -/
theorem c5_direct_path (env : Env) (m : Nat) (q r : String)
    (hr : env.llm (routerMessages q) = Except.ok r)
    (hdirect : strContains (strLower r) "direct" = true)
    (hresp : ∀ s, ∃ a, env.llm (responseMessages s) = Except.ok a) :
    ∃ res, execute env m q = Except.ok res ∧ res.sources = [] ∧ res.iterations = 0
      ∧ (∀ vs, execute { env with vectorSearch := vs } m q = Except.ok res) := by
  obtain ⟨a, ha⟩ := hresp { initialState q with
    messages := [⟨Role.ai, r⟩],
    current_agent := "router",
    router_decision := some r }
  simp only [initialState] at ha
  have key : ∀ (env2 : Env), env2.llm = env.llm →
      run env2 m (executeFuel m) Node.router (initialState q) =
        Except.ok { initialState q with
          messages := [⟨Role.ai, r⟩, ⟨Role.ai, a⟩],
          answer := a,
          current_agent := "response",
          router_decision := some r } := by
    intro env2 hllm2
    have hq : (initialState q).query = q := rfl
    have hstep1 : step env2 m Node.router (initialState q) =
        Except.ok (Node.response, { initialState q with
          messages := [⟨Role.ai, r⟩],
          current_agent := "router",
          router_decision := some r }) := by
      simp [step, router_agent_eq, hq, hllm2, hr, Except.map, routeTarget, initialState,
        route_decision, hdirect]
    have hstep2 : step env2 m Node.response { initialState q with
        messages := [⟨Role.ai, r⟩],
        current_agent := "router",
        router_decision := some r } =
        Except.ok (Node.done, { initialState q with
          messages := [⟨Role.ai, r⟩, ⟨Role.ai, a⟩],
          answer := a,
          current_agent := "response",
          router_decision := some r }) := by
      simp [step, response_agent_eq, hllm2, ha, Except.map, initialState]
    obtain ⟨f, hf⟩ : ∃ f, executeFuel m = f + 2 := ⟨2 * m + 4, by unfold executeFuel; omega⟩
    rw [hf, run_step_ok env2 m (f + 1) Node.router (initialState q) Node.response _
      (by simp) hstep1]
    rw [run_step_ok env2 m f Node.response _ Node.done _ (by simp) hstep2]
    exact run_done env2 m f _
  refine ⟨mkResult { initialState q with
    messages := [⟨Role.ai, r⟩, ⟨Role.ai, a⟩],
    answer := a,
    current_agent := "response",
    router_decision := some r }, ?_, ?_, ?_, ?_⟩
  · rw [execute, key env rfl]
    rfl
  · rfl
  · rfl
  · intro vs
    rw [execute, key { env with vectorSearch := vs } rfl]
    rfl

/-- Witness for C5: the spec scenario ("What is photosynthesis?", a
"direct" router reply) ends with no sources and 0 iterations. -/
theorem c5_direct_path_witness :
    ∃ res, execute demoDirectEnv 10 "What is photosynthesis?" = Except.ok res
      ∧ res.sources = [] ∧ res.iterations = 0
      ∧ (∀ vs, execute { demoDirectEnv with vectorSearch := vs } 10
          "What is photosynthesis?" = Except.ok res) :=
  c5_direct_path demoDirectEnv 10 "What is photosynthesis?" "direct" rfl (by decide)
    (fun _ => ⟨"direct", rfl⟩)

/-- C6: `answer` is empty at run start, preserved by the Router, Retriever
and Evaluator stages (only the Synthesizer writes it, setting it to the
model reply), the answer of a completed run always is a synthesizer-prompt
reply, and it is non-empty whenever the model only returns non-empty
content. -/
theorem c6_answer_lifecycle :
    (∀ q, (initialState q).answer = "")
  ∧ (∀ (env : Env) (s s2 : GraphState),
      router_agent env s = Except.ok s2 → s2.answer = s.answer)
  ∧ (∀ (env : Env) (s s2 : GraphState),
      query_agent env s = Except.ok s2 → s2.answer = s.answer)
  ∧ (∀ (env : Env) (s s2 : GraphState),
      evaluation_agent env s = Except.ok s2 → s2.answer = s.answer)
  ∧ (∀ (env : Env) (s : GraphState) (r : String),
      env.llm (responseMessages s) = Except.ok r →
      ∃ s2, response_agent env s = Except.ok s2 ∧ s2.answer = r)
  ∧ (∀ (env : Env) (m : Nat) (q : String) (res : ExecResult),
      execute env m q = Except.ok res →
      ∃ pre r, env.llm (responseMessages pre) = Except.ok r ∧ res.answer = r)
  ∧ (∀ (env : Env) (m : Nat) (q : String) (res : ExecResult),
      execute env m q = Except.ok res →
      (∀ msgs r, env.llm msgs = Except.ok r → r ≠ "") →
      res.answer ≠ "") := by
  have h6 : ∀ (env : Env) (m : Nat) (q : String) (res : ExecResult),
      execute env m q = Except.ok res →
      ∃ pre r, env.llm (responseMessages pre) = Except.ok r ∧ res.answer = r := by
    intro env m q res h
    rw [execute] at h
    rcases hrun : run env m (executeFuel m) Node.router (initialState q) with e | sf <;>
      rw [hrun] at h <;> simp [Except.map] at h
    obtain ⟨pre, r, hllm, hans⟩ :=
      run_answer env m (executeFuel m) Node.router (initialState q) sf (by simp) hrun
    refine ⟨pre, r, hllm, ?_⟩
    rw [← h]
    simpa [mkResult] using hans
  refine ⟨fun q => rfl, ?_, ?_, ?_, ?_, h6, ?_⟩
  · intro env s s2 h
    rw [router_agent_eq] at h
    rcases hc : env.llm (routerMessages s.query) with e | r <;> rw [hc] at h <;>
      cases h
    rfl
  · intro env s s2 h
    rw [query_agent_eq] at h
    rcases hc : env.vectorSearch s.query with e | rs <;> rw [hc] at h <;>
      cases h
    rfl
  · intro env s s2 h
    rw [evaluation_agent_eq] at h
    rcases hc : env.llm (evaluationMessages s) with e | r <;> rw [hc] at h <;>
      cases h
    rfl
  · intro env s r h
    refine ⟨{ s with
      answer := r,
      messages := s.messages ++ [⟨Role.ai, r⟩],
      current_agent := "response" }, ?_, rfl⟩
    simp [response_agent_eq, h]
  · intro env m q res h hne
    obtain ⟨pre, r, hllm, hans⟩ := h6 env m q res h
    rw [hans]
    exact hne _ _ hllm

/-- Witness for C6: a concrete completed run whose model never returns
empty content has a non-empty answer. -/
theorem c6_answer_lifecycle_witness :
    ({ answer := "direct", sources := [], router_decision := some "direct",
       evaluation := none, iterations := 0 } : ExecResult).answer ≠ "" := by
  refine c6_answer_lifecycle.2.2.2.2.2.2 demoDirectEnv 10 "what" _ rfl ?_
  intro msgs r h
  have h2 : Except.ok "direct" = Except.ok r := h
  injection h2 with h3
  rw [← h3]
  decide

/-- C4: with a positive cap `max_iterations = m`, a run that takes the
retrieval path and whose evaluator replies are never judged sufficient
performs exactly `m` Retriever passes (the instrumented driver counts
`m`), is then forced over to the Synthesizer, and terminates with the
returned iteration count equal to `m`. -/
theorem c4_exhaustion (env : Env) (m : Nat) (q : String)
    (hm : 1 ≤ m)
    (hS : ∀ t, ∃ rs, env.vectorSearch t = Except.ok rs)
    (hL : ∀ msgs, ∃ r, env.llm msgs = Except.ok r)
    (hR : ∀ r, env.llm (routerMessages q) = Except.ok r →
      strContains (strLower r) "direct" = false)
    (hE : ∀ s r, env.llm (evaluationMessages s) = Except.ok r →
      (strContains (strLower r) "sufficient"
        && strContains (strLower r) "true") = false) :
    ∃ sf, runP env m (executeFuel m) Node.router (initialState q) = Except.ok (sf, m)
      ∧ sf.iteration = m ∧ sf.current_agent = "response"
      ∧ execute env m q = Except.ok (mkResult sf)
      ∧ (mkResult sf).iterations = m := by
  obtain ⟨r, hr⟩ := hL (routerMessages q)
  have hnd := hR r hr
  have hq : (initialState q).query = q := rfl
  obtain ⟨s1, hstep1, hs1i⟩ :
      ∃ s1, step env m Node.router (initialState q) = Except.ok (Node.query, s1) ∧
        s1.iteration = 0 := by
    refine ⟨{ initialState q with
      messages := [⟨Role.ai, r⟩],
      current_agent := "router",
      router_decision := some r }, ?_, rfl⟩
    simp [step, router_agent_eq, hq, hr, Except.map, routeTarget, initialState,
      route_decision, hnd]
  obtain ⟨sf, hloop, hsfi, hsfa⟩ :=
    refine_loop env m hS hL hE m s1 (2 * m + 5) hm (by omega) (by omega)
  have hfuel : executeFuel m = 2 * m + 5 + 1 := by unfold executeFuel; omega
  have hrouter : runP env m (2 * m + 5 + 1) Node.router (initialState q) =
      Except.ok (sf, m) := by
    have := runP_step_ok env m (2 * m + 5) Node.router (initialState q) Node.query s1 sf m
      (by simp) hstep1 hloop
    simpa using this
  have hrun : run env m (executeFuel m) Node.router (initialState q) = Except.ok sf := by
    rw [hfuel]
    exact runP_run env m (2 * m + 5 + 1) Node.router (initialState q) sf m hrouter
  refine ⟨sf, ?_, hsfi, hsfa, ?_, ?_⟩
  · rw [hfuel]
    exact hrouter
  · rw [execute, hrun]
    rfl
  · simp [mkResult, hsfi]

/-- Witness for C4: the spec scenario `max_iterations = 2` with an
evaluator that always replies "sufficient: false" ends after exactly 2
Retriever passes with 2 iterations. -/
theorem c4_exhaustion_witness :
    ∃ sf, runP demoRefineEnv 2 (executeFuel 2) Node.router (initialState "q") =
        Except.ok (sf, 2)
      ∧ sf.iteration = 2 ∧ sf.current_agent = "response"
      ∧ execute demoRefineEnv 2 "q" = Except.ok (mkResult sf)
      ∧ (mkResult sf).iterations = 2 := by
  refine c4_exhaustion demoRefineEnv 2 "q" (by decide)
    (fun t => ⟨[], rfl⟩) (fun msgs => ⟨"sufficient: false", rfl⟩) ?_ ?_
  · intro r h
    have h2 : Except.ok "sufficient: false" = Except.ok r := h
    injection h2 with h3
    rw [← h3]
    decide
  · intro s r h
    have h2 : Except.ok "sufficient: false" = Except.ok r := h
    injection h2 with h3
    rw [← h3]
    decide

/-- Witness for C2: a fresh state, where the recorded router reply
defaults to the empty string, routes to the Retriever node. -/
theorem c2_router_decision_witness :
    routeTarget (route_decision (initialState "q")) = Node.query :=
  ((c2_router_decision (initialState "q")).2.2.2).mpr (by decide)
